import Mathlib

/-!
Verification development for the `product-crawler` repository.

The JavaScript sources are shallowly embedded: JavaScript objects built by
spread syntax are modelled as association lists where a later binding shadows
an earlier one (so `\x7b ...a, ...b \x7d` is list append and property lookup
prefers the rightmost binding), JS strings are Lean `String`s, machine
numbers used for confidences are rationals, and the asynchronous crawl loops
become explicit state-passing recursion with a fuel parameter where the
source loop is not structurally bounded.
-/

namespace Crawler

/-- A JavaScript value as it appears in the OCR field maps and merged
product sources: a string, a boolean (the `halal`/`kosher` flags), or
JSON `null`. -/
inductive JsVal where
  | str (s : String)
  | bool (b : Bool)
  | null
deriving DecidableEq

/-- JS truthiness for `JsVal` (empty string, `false` and `null` are falsy),
mirroring guards such as `if (!results.parsed_fields[key])`. -/
def JsVal.truthy : JsVal → Bool
  | .str s => s ≠ ""
  | .bool b => b
  | .null => false

/-- A JavaScript object as an association list; later bindings shadow
earlier ones, so object spread is plain append. -/
abbrev JsObj := List (String × JsVal)

/-- Property lookup on the object model: the value of the rightmost (latest)
binding of the key, `none` when the key is absent. -/
def getProp : JsObj → String → Option JsVal
  | [], _ => none
  | (k₀, v) :: rest, k =>
    match getProp rest k with
    | some v' => some v'
    | none => if k₀ == k then some v else none

/-- The first defined of two optional values. -/
def firstSome {α : Type} : Option α → Option α → Option α
  | some v, _ => some v
  | none, b => b

theorem firstSome_none_right {α : Type} (a : Option α) : firstSome a none = a := by
  cases a <;> rfl

theorem firstSome_assoc {α : Type} (a b c : Option α) :
    firstSome (firstSome a b) c = firstSome a (firstSome b c) := by
  cases a <;> rfl

/-- Lookup in an appended object (a JS spread of two objects) prefers the
second object's binding and falls back to the first. -/
theorem getProp_append (a b : JsObj) (k : String) :
    getProp (a ++ b) k = firstSome (getProp b k) (getProp a k) := by
  induction a with
  | nil => simp [getProp, firstSome_none_right]
  | cons p rest ih =>
    obtain ⟨k₀, v⟩ := p
    simp only [List.cons_append, getProp]
    rw [List.append_eq, ih]
    cases hb : getProp b k <;> cases hr : getProp rest k <;> simp [firstSome]

/-- ASCII whitespace recognised by the JavaScript regex class `\s`
(space, tab, newline, carriage return, vertical tab, form feed). -/
def isJsSpace (c : Char) : Bool :=
  c == ' ' || c == '\t' || c == '\n' || c == '\r' || c == '\x0B' || c == '\x0C'

/-- The character class `[:\s]` used between a label and its value in the
OCR field regexes. -/
def isColonSpace (c : Char) : Bool :=
  c == ':' || isJsSpace c

/-- The JavaScript word-character class `\w` = `[A-Za-z0-9_]`, used for the
`\b` boundary assertions around barcode digit runs. -/
def isWordCharJS (c : Char) : Bool :=
  c.isAlpha || c.isDigit || c == '_'

/-- A character kept by `sku.replace(/[^a-zA-Z0-9]/g, '')`. -/
def isAlnumAscii (c : Char) : Bool :=
  (('a' ≤ c) && (c ≤ 'z')) || (('A' ≤ c) && (c ≤ 'Z')) || (('0' ≤ c) && (c ≤ '9'))

/-- JavaScript `text.toLowerCase()` restricted to ASCII case folding (all
keyword patterns in the sources are ASCII). -/
def jsToLower (s : String) : String := String.mk (s.toList.map Char.toLower)

/-- Substring containment, the meaning of JavaScript `hay.includes(needle)`. -/
def containsSub (hay needle : String) : Bool :=
  hay.toList.tails.any (fun t => needle.toList.isPrefixOf t)

/-- Try a pattern matcher at every suffix of the text, leftmost position
first — the search behaviour of an unanchored JavaScript regex. -/
def scanTails {α : Type} (f : List Char → Option α) : List Char → Option α
  | [] => f []
  | c :: cs =>
    match f (c :: cs) with
    | some r => some r
    | none => scanTails f cs

/-- First element of the list on which `f` succeeds — ordered regex
alternation with the continuation folded into `f`. -/
def firstHit {α β : Type} (f : α → Option β) : List α → Option β
  | [] => none
  | a :: as =>
    match f a with
    | some b => some b
    | none => firstHit f as

/-- Case-insensitive comparison of two characters (ASCII case folding, as
all the regex literals in the sources are ASCII). -/
def lcEq (a b : Char) : Bool := a.toLower == b.toLower

/-- Match a literal case-insensitively at the head of the text, returning
the remainder on success. -/
def matchLitCI : List Char → List Char → Option (List Char)
  | [], cs => some cs
  | _ :: _, [] => none
  | l :: ls, c :: cs => if lcEq l c then matchLitCI ls cs else none

/-- Lazy `+` over a character class: consume the fewest (at least one)
class characters such that the terminator test succeeds on the remainder;
returns the consumed (capture) characters. -/
def lazyCapture (cls : Char → Bool) (term : List Char → Bool) : List Char → Option (List Char)
  | [] => none
  | c :: cs =>
    if cls c then
      if term cs then some [c]
      else (lazyCapture cls term cs).map (fun cap => c :: cap)
    else none

/-- Match `\d+(?:\.\d+)?` greedily, returning the matched characters and
the remainder. -/
def matchNumber (cs : List Char) : Option (List Char × List Char) :=
  let ds := cs.takeWhile Char.isDigit
  if ds.isEmpty then none
  else
    let r₁ := cs.drop ds.length
    match r₁ with
    | '.' :: r₂ =>
      let fs := r₂.takeWhile Char.isDigit
      if fs.isEmpty then some (ds, r₁)
      else some (ds ++ '.' :: fs, r₂.drop fs.length)
    | _ => some (ds, r₁)

/-- The ordered unit alternation `(?:g|kg|oz|lb|ml|l)` of the net-weight
regexes. -/
def unitAlts : List (List Char) :=
  [['g'], ['k', 'g'], ['o', 'z'], ['l', 'b'], ['m', 'l'], ['l']]

/-- Try the unit alternatives in regex order; each successful literal must
also satisfy the continuation, otherwise the next alternative is tried.
Returns the unit's original characters and the continuation's result. -/
def matchUnitThen {γ : Type} (cs : List Char) (cont : List Char → Option γ) :
    Option (List Char × γ) :=
  firstHit
    (fun u =>
      match matchLitCI u cs with
      | some rest => (cont rest).map (fun g => (cs.take u.length, g))
      | none => none)
    unitAlts

/-- Greedy `*` over a character class with full backtracking: consume `k`
class characters for the largest `k` whose continuation succeeds. -/
def greedyStarThen {γ : Type} (cls : Char → Bool) (cont : List Char → Option γ)
    (cs : List Char) : Option γ :=
  let m := (cs.takeWhile cls).length
  firstHit (fun k => cont (cs.drop k)) ((List.range (m + 1)).reverse)

/-- Does `\b(\d\x7bn\x7d)\b` match at position `i`: a run of exactly `n`
digits with word boundaries on both sides. -/
def exactRunAt (cs : List Char) (i n : Nat) : Bool :=
  (decide (i = 0) || !(isWordCharJS (cs.getD (i - 1) ' '))) &&
  (((cs.drop i).take n).length == n) &&
  (((cs.drop i).take n).all Char.isDigit) &&
  (decide (i + n = cs.length) || !(isWordCharJS (cs.getD (i + n) ' ')))

/-- Leftmost match of `\b(\d\x7bn\x7d)\b` in the text, returning the digit
run. -/
def findExactRun (text : String) (n : Nat) : Option String :=
  let cs := text.toList
  ((List.range (cs.length + 1)).find? (fun i => exactRunAt cs i n)).map
    (fun i => String.mk ((cs.drop i).take n))

/-- JavaScript `String.prototype.trim` restricted to ASCII whitespace. -/
def jsTrim (s : String) : String :=
  String.mk (((s.toList.dropWhile isJsSpace).reverse.dropWhile isJsSpace).reverse)

/-- Capture part shared by the two net-weight regexes:
`[:\s]*(\d+(?:\.\d+)?\s*(?:g|kg|oz|lb|ml|l))` is not needed verbatim by the
second one, so this helper only covers the label-to-value tail of
`weightPatterns[0]`. -/
def netWeightCapture (r : List Char) : Option String :=
  greedyStarThen isColonSpace
    (fun r₄ =>
      match matchNumber r₄ with
      | none => none
      | some (numChars, r₅) =>
        let sp := r₅.takeWhile isJsSpace
        let r₆ := r₅.drop sp.length
        (matchUnitThen r₆ (fun _ => some ())).map
          (fun p => String.mk (numChars ++ sp ++ p.1)))
    r

/-- The `wt\.?` alternative of `weightPatterns[0]`, with the optional dot
consumed greedily and given back on failure. -/
def netWeightWtBranch (r₂ : List Char) : Option String :=
  match matchLitCI ['w', 't'] r₂ with
  | none => none
  | some r₃ =>
    match r₃ with
    | '.' :: r₄ =>
      match netWeightCapture r₄ with
      | some s => some s
      | none => netWeightCapture r₃
    | _ => netWeightCapture r₃

/-- `weightPatterns[0]`:
`/net\s*(?:weight|wt\.?)[:\s]*(\d+(?:\.\d+)?\s*(?:g|kg|oz|lb|ml|l))/i`
matched at the head of the text. -/
def netWeightP1At (cs : List Char) : Option String :=
  match matchLitCI ['n', 'e', 't'] cs with
  | none => none
  | some r₁ =>
    let r₂ := r₁.drop (r₁.takeWhile isJsSpace).length
    match matchLitCI "weight".toList r₂ with
    | some r₃ =>
      match netWeightCapture r₃ with
      | some s => some s
      | none => netWeightWtBranch r₂
    | none => netWeightWtBranch r₂

/-- `weightPatterns[1]`:
`/(\d+(?:\.\d+)?\s*(?:g|kg|oz|lb|ml|l))\s*net/i` matched at the head of the
text. -/
def netWeightP2At (cs : List Char) : Option String :=
  match matchNumber cs with
  | none => none
  | some (numChars, r₁) =>
    let sp := r₁.takeWhile isJsSpace
    let r₂ := r₁.drop sp.length
    (matchUnitThen r₂
        (fun r₃ => matchLitCI ['n', 'e', 't'] (r₃.drop (r₃.takeWhile isJsSpace).length))).map
      (fun p => String.mk (numChars ++ sp ++ p.1))

/-- The net-weight extraction loop of `parseOCRFields`: first pattern that
matches wins, and the capture is trimmed. -/
def parseNetWeight (text : String) : Option String :=
  match scanTails netWeightP1At text.toList with
  | some m => some (jsTrim m)
  | none => (scanTails netWeightP2At text.toList).map jsTrim

/-- The lookahead `(?=nutrition|contains|allergen|$)` of the ingredients
regex. -/
def ingredientsLookahead (cs : List Char) : Bool :=
  cs.isEmpty || (matchLitCI "nutrition".toList cs).isSome ||
    (matchLitCI "contains".toList cs).isSome ||
    (matchLitCI "allergen".toList cs).isSome

/-- `/ingredients[:\s]*(.+?)(?=nutrition|contains|allergen|$)/is` matched
at the head of the text; with the `s` flag the dot also matches newlines. -/
def ingredientsAt (cs : List Char) : Option (List Char) :=
  match matchLitCI "ingredients".toList cs with
  | none => none
  | some r₁ =>
    greedyStarThen isColonSpace
      (fun r₂ => lazyCapture (fun _ => true) ingredientsLookahead r₂) r₁

/-- The ingredients extraction of `parseOCRFields`: capture, trim, then
replace newlines by spaces. -/
def parseIngredients (text : String) : Option String :=
  (scanTails ingredientsAt text.toList).map
    (fun cap =>
      String.mk ((jsTrim (String.mk cap)).toList.map (fun c => if c == '\n' then ' ' else c)))

/-- Terminator `(?:\.|,|$)` of the origin and manufacturer regexes. -/
def termDotCommaEnd (cs : List Char) : Bool :=
  cs.isEmpty || cs.head? == some '.' || cs.head? == some ','

/-- Terminator `(?:\.|$)` of the storage and expiry regexes. -/
def termDotEnd (cs : List Char) : Bool :=
  cs.isEmpty || cs.head? == some '.'

/-- The dot character class of a regex without the `s` flag: any character
except newline. -/
def notNewline (c : Char) : Bool := c != '\n'

/-- The class `[a-z\s]` under the `i` flag: an ASCII letter or whitespace. -/
def alphaOrSpace (c : Char) : Bool := c.isAlpha || isJsSpace c

/-- Generic shape `(?:lit1|lit2|...)[:\s]*(cls+?)term` shared by the
origin, manufacturer and textual-expiry regexes; returns the capture. -/
def litAltColonLazy (alts : List (List Char)) (cls : Char → Bool) (term : List Char → Bool)
    (cs : List Char) : Option (List Char) :=
  firstHit
    (fun lit =>
      match matchLitCI lit cs with
      | none => none
      | some r₁ => greedyStarThen isColonSpace (fun r₂ => lazyCapture cls term r₂) r₁)
    alts

/-- Alternation of `originPatterns[0]`. -/
def originAlts1 : List (List Char) :=
  ["product of".toList, "made in".toList, "origin".toList]

/-- Alternation of `originPatterns[1]`. -/
def originAlts2 : List (List Char) := ["country of origin".toList]

/-- The origin extraction loop of `parseOCRFields`. -/
def parseOrigin (text : String) : Option String :=
  match scanTails (litAltColonLazy originAlts1 alphaOrSpace termDotCommaEnd) text.toList with
  | some cap => some (jsTrim (String.mk cap))
  | none =>
    (scanTails (litAltColonLazy originAlts2 alphaOrSpace termDotCommaEnd) text.toList).map
      (fun cap => jsTrim (String.mk cap))

/-- Alternation of `mfgPatterns[0]`. -/
def mfgAlts1 : List (List Char) :=
  ["manufactured by".toList, "distributed by".toList, "produced by".toList]

/-- Alternation of `mfgPatterns[1]`. -/
def mfgAlts2 : List (List Char) := ["mfg by".toList, "dist by".toList]

/-- The manufacturer extraction loop of `parseOCRFields`. -/
def parseManufacturer (text : String) : Option String :=
  match scanTails (litAltColonLazy mfgAlts1 notNewline termDotCommaEnd) text.toList with
  | some cap => some (jsTrim (String.mk cap))
  | none =>
    (scanTails (litAltColonLazy mfgAlts2 notNewline termDotCommaEnd) text.toList).map
      (fun cap => jsTrim (String.mk cap))

/-- Alternation of `storagePatterns[0]`. -/
def storageAlts : List (List Char) := ["store".toList, "keep".toList, "storage".toList]

/-- `/(?:store|keep|storage)[:\s]*(.+?)(?:\.|$)/i` matched at the head of
the text, returning the WHOLE match (the source stores `match[0]`),
including the terminating dot when one was matched. -/
def storageWholeAt (cs : List Char) : Option (List Char) :=
  firstHit
    (fun lit =>
      match matchLitCI lit cs with
      | none => none
      | some r₁ =>
        let litOrig := cs.take lit.length
        let m := (r₁.takeWhile isColonSpace).length
        firstHit
          (fun k =>
            match lazyCapture notNewline termDotEnd (r₁.drop k) with
            | none => none
            | some cap =>
              let afterCap := r₁.drop (k + cap.length)
              let dot := if afterCap.head? == some '.' then ['.'] else []
              some (litOrig ++ r₁.take k ++ cap ++ dot))
          ((List.range (m + 1)).reverse))
    storageAlts

/-- Alternation of `storagePatterns[1]`, whose whole match is just the
matched literal. -/
def storageLits2 : List (List Char) :=
  ["refrigerate".toList, "freeze".toList, "keep frozen".toList]

/-- `/(?:refrigerate|freeze|keep frozen)/i` matched at the head of the
text. -/
def storageLitAt (cs : List Char) : Option (List Char) :=
  firstHit (fun lit => (matchLitCI lit cs).map (fun _ => cs.take lit.length)) storageLits2

/-- The storage extraction loop of `parseOCRFields` (`match[0].trim()`). -/
def parseStorage (text : String) : Option String :=
  match scanTails storageWholeAt text.toList with
  | some m => some (jsTrim (String.mk m))
  | none => (scanTails storageLitAt text.toList).map (fun m => jsTrim (String.mk m))

/-- Alternation of `expiryPatterns[0]`. -/
def expiryAlts1 : List (List Char) :=
  ["best before".toList, "use by".toList, "expiry".toList, "exp".toList]

/-- `expiryPatterns[0]` applied to the whole text (capture, trimmed). -/
def parseExpiryP1 (text : String) : Option String :=
  (scanTails (litAltColonLazy expiryAlts1 notNewline termDotEnd) text.toList).map
    (fun cap => jsTrim (String.mk cap))

/-- Bounded greedy digit quantifier `\d\x7blo,hi\x7d` with backtracking
through the continuation. -/
def matchBoundedDigits {γ : Type} (lo hi : Nat) (cs : List Char)
    (cont : List Char → Option γ) : Option (List Char × γ) :=
  firstHit
    (fun n =>
      let ds := cs.take n
      if ds.length == n && ds.all Char.isDigit then
        (cont (cs.drop n)).map (fun g => (ds, g))
      else none)
    (((List.range (hi + 1)).reverse).filter (fun n => lo ≤ n))

/-- The date separator class `[\/\-]`. -/
def matchDateSep (cs : List Char) : Option (Char × List Char) :=
  match cs with
  | c :: r => if c == '/' || c == '-' then some (c, r) else none
  | [] => none

/-- The capture `(\d\x7b1,2\x7d[\/\-]\d\x7b1,2\x7d[\/\-]\d\x7b2,4\x7d)` of
`expiryPatterns[1]`. -/
def matchDatePattern (cs : List Char) : Option (List Char) :=
  (matchBoundedDigits 1 2 cs (fun r₃ =>
    match matchDateSep r₃ with
    | none => none
    | some (s₁, r₄) =>
      (matchBoundedDigits 1 2 r₄ (fun r₅ =>
        match matchDateSep r₅ with
        | none => none
        | some (s₂, r₆) =>
          (matchBoundedDigits 2 4 r₆ (fun _ => some ())).map
            (fun p => s₂ :: p.1))).map
        (fun p => s₁ :: (p.1 ++ p.2)))).map (fun p => p.1 ++ p.2)

/-- `/(?:bb|exp)[:\s]*(\d\x7b1,2\x7d[\/\-]\d\x7b1,2\x7d[\/\-]\d\x7b2,4\x7d)/i`
matched at the head of the text. -/
def expiryDateAt (cs : List Char) : Option (List Char) :=
  firstHit
    (fun lit =>
      match matchLitCI lit cs with
      | none => none
      | some r₁ => greedyStarThen isColonSpace matchDatePattern r₁)
    ["bb".toList, "exp".toList]

/-- The expiry extraction loop of `parseOCRFields`: first matching pattern
wins, capture trimmed. -/
def parseExpiry (text : String) : Option String :=
  match parseExpiryP1 text with
  | some v => some v
  | none => (scanTails expiryDateAt text.toList).map (fun cap => jsTrim (String.mk cap))

/-- The run lengths of `/\b(\d\x7b8\x7d|\d\x7b12\x7d|\d\x7b13\x7d|\d\x7b14\x7d)\b/`,
in alternation order. -/
def barcodeRunLens : List Nat := [8, 12, 13, 14]

/-- The `potential_barcode` extraction of `parseOCRFields`: leftmost
position first, alternation order within a position. -/
def findPotentialBarcode (text : String) : Option String :=
  let cs := text.toList
  ((List.range (cs.length + 1)).find?
      (fun i => barcodeRunLens.any (fun n => exactRunAt cs i n))).bind
    (fun i =>
      (barcodeRunLens.find? (fun n => exactRunAt cs i n)).map
        (fun n => String.mk ((cs.drop i).take n)))

/-- Build a one-entry object when the optional field is present. -/
def optStr (k : String) : Option String → JsObj
  | some s => [(k, JsVal.str s)]
  | none => []

/-- `parseOCRFields` (OCR module): independent extractors assigned to the
field object in source order. -/
def parseOCRFields (text : String) : JsObj :=
  optStr "net_weight" (parseNetWeight text) ++
  optStr "ingredients" (parseIngredients text) ++
  optStr "origin" (parseOrigin text) ++
  optStr "manufacturer" (parseManufacturer text) ++
  optStr "storage" (parseStorage text) ++
  (if containsSub (jsToLower text) "halal" then [("halal", JsVal.bool true)] else []) ++
  (if containsSub (jsToLower text) "kosher" then [("kosher", JsVal.bool true)] else []) ++
  optStr "expiry" (parseExpiry text) ++
  optStr "potential_barcode" (findPotentialBarcode text)

/-- The nutrition keyword set of `classifyImageContent`. -/
def nutritionPatterns : List String :=
  ["nutrition facts", "nutritional information", "per serving",
   "calories", "total fat", "sodium", "carbohydrate", "protein",
   "daily value", "saturated fat", "cholesterol", "dietary fiber"]

/-- The ingredient keyword set of `classifyImageContent`. -/
def ingredientPatterns : List String :=
  ["ingredients:", "ingredients", "contains:", "may contain",
   "allergen", "wheat", "soy", "milk", "eggs", "nuts"]

/-- The string members of the barcode indicator set of
`classifyImageContent` (checked against the lowercased text). -/
def barcodeStringPatterns : List String := ["ean", "upc", "gtin"]

/-- The front-label keyword set of `classifyImageContent`. -/
def frontPatterns : List String :=
  ["new", "organic", "natural", "best before",
   "net weight", "net wt", "oz", "ml", "g "]

/-- Does `/\d\x7b8,14\x7d/` match the text: it does exactly when the text
contains at least 8 consecutive digits. -/
def hasLongDigitRun (text : String) : Bool :=
  text.toList.tails.any
    (fun t => ((t.take 8).length == 8) && (t.take 8).all Char.isDigit)

/-- Nutrition rule of `classifyImageContent`. -/
def hasNutritionKeyword (text : String) : Bool :=
  nutritionPatterns.any (fun p => containsSub (jsToLower text) p)

/-- Ingredient rule of `classifyImageContent`. -/
def hasIngredientKeyword (text : String) : Bool :=
  ingredientPatterns.any (fun p => containsSub (jsToLower text) p)

/-- Barcode rule of `classifyImageContent`: the digit-run regex is tested
on the raw text, the string tokens on the lowercased text. -/
def hasBarcodeIndicator (text : String) : Bool :=
  hasLongDigitRun text || barcodeStringPatterns.any (fun p => containsSub (jsToLower text) p)

/-- Front-label rule of `classifyImageContent`. -/
def hasFrontKeyword (text : String) : Bool :=
  frontPatterns.any (fun p => containsSub (jsToLower text) p)

/-- `classifyImageContent` (OCR module): ordered rule list, first match
wins. -/
def classifyImageContent (text : String) : String :=
  if hasNutritionKeyword text then "nutrition"
  else if hasIngredientKeyword text then "ingredients"
  else if hasBarcodeIndicator text then "barcode"
  else if hasFrontKeyword text then "front"
  else "other"

/-- `extractBarcodeFromOCR` (OCR module): the patterns
`\b(\d\x7b13\x7d)\b`, `\b(\d\x7b12\x7d)\b`, `\b(\d\x7b8\x7d)\b`,
`\b(\d\x7b14\x7d)\b` tried in that order, first match returned. -/
def extractBarcodeFromOCR (text : String) : Option String :=
  match findExactRun text 13 with
  | some m => some m
  | none =>
    match findExactRun text 12 with
    | some m => some m
    | none =>
      match findExactRun text 8 with
      | some m => some m
      | none => findExactRun text 14

/-- A decode result as produced by the barcode pipeline. -/
structure BarcodeResult where
  value : String
  format : String
  confidence : ℚ
deriving DecidableEq

/-- Confidence assigned by `decodeWithZXing` to a successful true decode
(`confidence: 0.95`). -/
def trueDecodeConfidence : ℚ := 95 / 100

/-- Confidence assigned to a barcode recovered from OCR text
(`confidence: 0.5` in `processProductImages`). -/
def ocrFallbackConfidence : ℚ := 1 / 2

/-- The OCR-fallback recovery step of `SupermarketCrawler.processProductImages`
(the `if (!barcodeResult && ocrResult.text)` block, run when OCR is
enabled): a barcode recovered from the OCR text replaces a missing decode
result, tagged `EAN-13` only for 13-digit values and always with the fixed
lower confidence. -/
def recoverBarcodeFromOCR (barcodeResult : Option BarcodeResult) (ocrText : String) :
    Option BarcodeResult :=
  if barcodeResult.isNone && !ocrText.isEmpty then
    match extractBarcodeFromOCR ocrText with
    | some v =>
      some ⟨v, if v.length == 13 then "EAN-13" else "Unknown", ocrFallbackConfidence⟩
    | none => barcodeResult
  else barcodeResult

/-- The OCR-field accumulation of `SupermarketCrawler.processProductImages`:
starting from `ocrFields = \x7b\x7d`, every image whose OCR produced
non-empty text contributes `ocrFields = \x7b ...ocrFields, ...fields \x7d`
with `fields = parseOCRFields(text)`; under the association-list model the
spread is append. -/
def crawlerOcrFields (texts : List String) : JsObj :=
  texts.foldl (fun acc t => if t = "" then acc else acc ++ parseOCRFields t) []

/-- Reference lookup describing `crawlerOcrFields`: the value parsed from
the LATEST non-empty text that defines the key. -/
def lastSeenFieldValue (texts : List String) (k : String) : Option JsVal :=
  texts.foldl
    (fun r t => if t = "" then r else firstSome (getProp (parseOCRFields t) k) r) none

/-- Reference lookup following the spec's words for the stored field map:
first-seen-wins, the value parsed from the EARLIEST text that defines the
key. -/
def firstSeenFieldValue (texts : List String) (k : String) : Option JsVal :=
  texts.foldl
    (fun r t => if t = "" then r else firstSome r (getProp (parseOCRFields t) k)) none

/-- One assignment step of the OCR module's own `processProductImages`
merge: `if (!results.parsed_fields[key]) results.parsed_fields[key] = value`. -/
def setFieldIfFalsy (acc : JsObj) (kv : String × JsVal) : JsObj :=
  match getProp acc kv.1 with
  | some v => if v.truthy then acc else acc ++ [kv]
  | none => acc ++ [kv]

/-- The parsed-field merge of the OCR module's `processProductImages`
helper (not called by the crawler's store path): per-image fields are
entered only where the accumulator is still falsy. -/
def ocrModuleParsedFields (texts : List String) : JsObj :=
  texts.foldl (fun acc t => (parseOCRFields t).foldl setFieldIfFalsy acc) []

/-- A JSON network response kept by the interception listener in
`crawlProduct` (`if (json.product || json.item || json.data)`); only the
`product` and `item` sub-objects are spread into the merge. -/
structure InterceptedJson where
  product : Option JsObj
  item : Option JsObj
  data : Option JsObj

/-- Spreading a possibly-missing object: `\x7b ...undefined \x7d` and
`\x7b ...null \x7d` contribute nothing. -/
def optObj : Option JsObj → JsObj
  | some o => o
  | none => []

/-- Line 904 of the crawler:
`structuredData = \x7b ...structuredData, ...jsonData.product, ...jsonData.item \x7d`,
executed only when an intercepted JSON response exists. -/
def mergeStructuredWithJson (structuredData : Option JsObj)
    (jsonData : Option InterceptedJson) : Option JsObj :=
  match jsonData with
  | none => structuredData
  | some j => some (optObj structuredData ++ optObj j.product ++ optObj j.item)

/-- The source fusion of `extractProductData`:
`const merged = \x7b ...domData, ...structuredData \x7d` after the optional
intercepted-JSON augmentation. -/
def mergeProductSources (domData : JsObj) (structuredData : Option JsObj)
    (jsonData : Option InterceptedJson) : JsObj :=
  match mergeStructuredWithJson structuredData jsonData with
  | none => domData
  | some sd => domData ++ sd

/-- The `product` sub-object contributed by the intercepted response. -/
def interceptedProductObj : Option InterceptedJson → JsObj
  | none => []
  | some j => optObj j.product

/-- The `item` sub-object contributed by the intercepted response. -/
def interceptedItemObj : Option InterceptedJson → JsObj
  | none => []
  | some j => optObj j.item

/-- Lookup that only returns a non-empty (truthy) value, used to express
the spec's merge rule. -/
def truthyLookup (o : JsObj) (k : String) : Option JsVal :=
  match getProp o k with
  | some v => if v.truthy then some v else none
  | none => none

/-- Reference merge following the spec's words (not the source): for each
field the highest-precedence source that defines a NON-EMPTY value wins,
with precedence DOM-fallback < structured data < intercepted JSON. -/
def specNonEmptyPrecedenceMerge (domData : JsObj) (structuredData : Option JsObj)
    (jsonData : Option InterceptedJson) (k : String) : Option JsVal :=
  firstSome
    (truthyLookup (interceptedProductObj jsonData ++ interceptedItemObj jsonData) k)
    (firstSome (truthyLookup (optObj structuredData) k) (truthyLookup domData k))

/-- UTF-8 encoding of one character, the byte stream
`crypto.createHash('sha1').update(url)` consumes. -/
def utf8EncodeCharNat (c : Char) : List Nat :=
  let n := c.toNat
  if n < 128 then [n]
  else if n < 2048 then [192 + n / 64, 128 + n % 64]
  else if n < 65536 then [224 + n / 4096, 128 + (n / 64) % 64, 128 + n % 64]
  else [240 + n / 262144, 128 + (n / 4096) % 64, 128 + (n / 64) % 64, 128 + n % 64]

/-- UTF-8 bytes of a string. -/
def utf8Bytes (s : String) : List Nat :=
  (s.toList.map utf8EncodeCharNat).flatten

/-- Reduction modulo 2^32. -/
def mask32 (x : Nat) : Nat := x % 4294967296

/-- 32-bit left rotation (for `0 < n < 32` and `x < 2^32`). -/
def rotl32 (n x : Nat) : Nat := mask32 ((x <<< n) + (x >>> (32 - n)))

/-- SHA-1 message padding: `0x80`, zeros to 56 mod 64, then the bit length
as 8 big-endian bytes. -/
def sha1Pad (msg : List Nat) : List Nat :=
  let len := msg.length
  let zeros := (119 - len % 64) % 64
  msg ++ [128] ++ List.replicate zeros 0 ++
    (List.range 8).map (fun i => ((len * 8) >>> ((7 - i) * 8)) % 256)

/-- Split a byte list into 64-byte chunks (fuel-indexed to keep the
recursion structural; the fuel `l.length` always suffices). -/
def toChunksAux : Nat → List Nat → List (List Nat)
  | 0, _ => []
  | _, [] => []
  | fuel + 1, l => l.take 64 :: toChunksAux fuel (l.drop 64)

/-- The 64-byte chunks of a padded message. -/
def toChunks (l : List Nat) : List (List Nat) := toChunksAux l.length l

/-- Big-endian 32-bit word `i` of a 64-byte chunk. -/
def chunkWord (c : List Nat) (i : Nat) : Nat :=
  (c.getD (4 * i) 0) * 16777216 + (c.getD (4 * i + 1) 0) * 65536 +
    (c.getD (4 * i + 2) 0) * 256 + c.getD (4 * i + 3) 0

/-- One step of the SHA-1 message-schedule extension. -/
def extendStep (w : List Nat) : List Nat :=
  w ++ [rotl32 1 ((((w.getD (w.length - 3) 0) ^^^ (w.getD (w.length - 8) 0)) ^^^
    (w.getD (w.length - 14) 0)) ^^^ (w.getD (w.length - 16) 0))]

/-- The 80 schedule words of a chunk. -/
def scheduleWords (c : List Nat) : List Nat :=
  (List.range 64).foldl (fun w _ => extendStep w) ((List.range 16).map (chunkWord c))

/-- The five 32-bit working registers of SHA-1. -/
abbrev Sha1State := Nat × Nat × Nat × Nat × Nat

/-- The SHA-1 round function for round `i`. -/
def sha1F (i b c d : Nat) : Nat :=
  if i < 20 then (b &&& c) ||| ((b ^^^ 4294967295) &&& d)
  else if i < 40 then (b ^^^ c) ^^^ d
  else if i < 60 then ((b &&& c) ||| (b &&& d)) ||| (c &&& d)
  else (b ^^^ c) ^^^ d

/-- The SHA-1 round constant for round `i`. -/
def sha1K (i : Nat) : Nat :=
  if i < 20 then 1518500249
  else if i < 40 then 1859775393
  else if i < 60 then 2400959708
  else 3395469782

/-- One SHA-1 round. -/
def sha1Round (st : Sha1State) (iw : Nat × Nat) : Sha1State :=
  let (a, b, c, d, e) := st
  let temp := mask32 (rotl32 5 a + sha1F iw.1 b c d + e + sha1K iw.1 + iw.2)
  (temp, a, rotl32 30 b, c, d)

/-- The SHA-1 initial state. -/
def sha1Init : Sha1State :=
  (1732584193, 4023233417, 2562383102, 271733878, 3285377520)

/-- Process one 64-byte chunk. -/
def processChunk (h : Sha1State) (chunk : List Nat) : Sha1State :=
  let ws := scheduleWords chunk
  let st := ws.enum.foldl sha1Round h
  (mask32 (h.1 + st.1), mask32 (h.2.1 + st.2.1), mask32 (h.2.2.1 + st.2.2.1),
    mask32 (h.2.2.2.1 + st.2.2.2.1), mask32 (h.2.2.2.2 + st.2.2.2.2))

/-- Lowercase hex digit. -/
def hexChar (n : Nat) : Char :=
  if n < 10 then Char.ofNat (48 + n) else Char.ofNat (87 + n)

/-- Eight lowercase hex digits of a 32-bit word, most significant first. -/
def wordHex (w : Nat) : List Char :=
  (List.range 8).map (fun i => hexChar ((w >>> ((7 - i) * 4)) % 16))

/-- Lowercase hexadecimal SHA-1 digest of a string, the value of
`crypto.createHash('sha1').update(url).digest('hex')`. -/
def sha1Hex (s : String) : String :=
  let h := (toChunks (sha1Pad (utf8Bytes s))).foldl processChunk sha1Init
  String.mk (wordHex h.1 ++ wordHex h.2.1 ++ wordHex h.2.2.1 ++
    wordHex h.2.2.2.1 ++ wordHex h.2.2.2.2)

/-- JS truthiness of the optional `sku` argument of `generateProductId`
(`null` and the empty string are falsy). -/
def skuTruthy : Option String → Bool
  | none => false
  | some s => s != ""

/-- The SKU branch of `generateProductId`:
`sku.replace(/[^a-zA-Z0-9]/g, '').substring(0, 12).toUpperCase()`. -/
def sanitizeSku (sku : String) : String :=
  String.mk (((sku.toList.filter isAlnumAscii).take 12).map Char.toUpper)

/-- The URL branch of `generateProductId`: first 12 hex characters of the
SHA-1 digest, uppercased. -/
def urlHashId (url : String) : String :=
  String.mk (((sha1Hex url).toList.take 12).map Char.toUpper)

/-- `SupermarketCrawler.generateProductId`. -/
def generateProductId (url : String) (sku : Option String) : String :=
  if skuTruthy sku then sanitizeSku (sku.getD "")
  else urlHashId url

/-- `calculateEAN13CheckDigit` (barcode module): `some (-1)` for a wrong
length, `none` models the `NaN` produced by `parseInt` on a non-digit
character, otherwise the weighted checksum digit. -/
def calculateEAN13CheckDigit (digits : String) : Option Int :=
  if digits.length ≠ 12 then some (-1)
  else if !(digits.toList.all Char.isDigit) then none
  else
    let vals := digits.toList.map (fun c => c.toNat - 48)
    let sum := vals.enum.foldl (fun s p => s + (if p.1 % 2 = 0 then p.2 else p.2 * 3)) 0
    some (((10 - sum % 10) % 10 : Nat) : Int)

/-- Reference check digit following the spec's words (not the source): odd
1-based positions weighted 1, even positions weighted 3, check digit
`(10 - (sum mod 10)) mod 10`. -/
def standardEAN13CheckDigit (ds : List Nat) : Nat :=
  let sum := ds.enum.foldl (fun s p => s + (if (p.1 + 1) % 2 = 1 then p.2 else 3 * p.2)) 0
  (10 - sum % 10) % 10

/-- A category listing URL as the JS `URL` object used by
`getPaginatedUrl`: origin-plus-path and the ordered search parameters. -/
structure CatUrl where
  base : String
  params : List (String × String)
deriving DecidableEq

/-- `urlObj.searchParams.has(k)`. -/
def hasParam (ps : List (String × String)) (k : String) : Bool :=
  ps.any (fun p => p.1 == k)

/-- `urlObj.searchParams.set(k, v)`: replace an existing parameter, else
append. -/
def setParam (ps : List (String × String)) (k v : String) : List (String × String) :=
  if hasParam ps k then ps.map (fun p => if p.1 == k then (k, v) else p)
  else ps ++ [(k, v)]

/-- `SupermarketCrawler.getPaginatedUrl`: page 1 is the category URL
itself; otherwise an existing `page` or `p` parameter is reused, else
`page` is set. -/
def getPaginatedUrl (url : CatUrl) (pageNum : Nat) : CatUrl :=
  if pageNum = 1 then url
  else if hasParam url.params "page" then
    { url with params := setParam url.params "page" (toString pageNum) }
  else if hasParam url.params "p" then
    { url with params := setParam url.params "p" (toString pageNum) }
  else
    { url with params := setParam url.params "page" (toString pageNum) }

/-- What one loaded listing page yields to `crawlCategory`: the filtered
product links and the `hasNextPage` probe result. -/
structure PageView where
  links : List String
  hasNext : Bool
deriving DecidableEq

/-- Why the `crawlCategory` loop exited. -/
inductive StopReason where
  | stopRequested
  | pageVisited
  | noProducts
  | noNextPage
deriving DecidableEq

/-- Outcome of one category traversal: product URLs handed to
`crawlProduct` in order, listing pages visited, and the exit condition. -/
structure CatTraversal where
  handedOff : List String
  visitedPages : List CatUrl
  reason : StopReason
deriving DecidableEq

/-- The per-page product loop of `crawlCategory` restricted to its dedup
bookkeeping (`discoveredProducts`): returns the updated dedup set and the
URLs handed to `crawlProduct`, in order. -/
def collectNewProducts (discovered : List String) : List String → List String × List String
  | [] => (discovered, [])
  | url :: rest =>
    if url ∈ discovered then collectNewProducts discovered rest
    else
      let p := collectNewProducts (discovered ++ [url]) rest
      (p.1, url :: p.2)

/-- The `while (hasMorePages && !this.stopRequested)` loop of
`SupermarketCrawler.crawlCategory`, with page loads as the pure `site`
function, the cooperative stop flag constant over the run (it is only set
externally), successful page loads and product visits, and a fuel bound
(`none` = the loop was still running after `fuel` pages). -/
def crawlCategoryModel (site : CatUrl → PageView) (stopReq : Bool) (catUrl : CatUrl) :
    Nat → List CatUrl → List String → List String → Nat → Option CatTraversal
  | 0, _, _, _, _ => none
  | fuel + 1, visited, discovered, handed, pageNum =>
    if stopReq then some ⟨handed, visited, .stopRequested⟩
    else
      let pageUrl := getPaginatedUrl catUrl pageNum
      if pageUrl ∈ visited then some ⟨handed, visited, .pageVisited⟩
      else
        let visited' := visited ++ [pageUrl]
        let pv := site pageUrl
        if pv.links.isEmpty then some ⟨handed, visited', .noProducts⟩
        else
          let p := collectNewProducts discovered pv.links
          if pv.hasNext then
            crawlCategoryModel site stopReq catUrl fuel visited' p.1 (handed ++ p.2)
              (pageNum + 1)
          else some ⟨handed ++ p.2, visited', .noNextPage⟩

/-- One entry of the per-job error log written by
`CrawlerDatabase.appendJobError`. -/
structure ErrEntry where
  timestamp : String
  message : String
deriving DecidableEq

/-- The persisted `crawl_jobs` row, restricted to the fields the claims
are about. -/
structure JobRecord where
  status : String
  errorLog : List ErrEntry
  errors : Nat
  processedCategories : Nat
  processedProducts : Nat
deriving DecidableEq

/-- JavaScript `arr.slice(-n)`: the last `n` entries (all of them when the
list is shorter). -/
def lastN (n : Nat) (l : List ErrEntry) : List ErrEntry := l.drop (l.length - n)

/-- `CrawlerDatabase.appendJobError`: push a timestamped entry, keep only
the last 100, and increment the `errors` counter. -/
def appendJobError (job : JobRecord) (ts msg : String) : JobRecord :=
  { job with
    errorLog := lastN 100 (job.errorLog ++ [⟨ts, msg⟩]),
    errors := job.errors + 1 }

/-- What processing one category did: returned normally or threw with a
message. -/
inductive CatOutcome where
  | ok
  | fail (msg : String)
deriving DecidableEq

/-- The category loop of `SupermarketCrawler.startCrawl` (lines 423-437):
a successful category increments `processed_categories`, a thrown error is
caught, appended to the job log (timestamped by `tsOf` at its index) and
counted, and the loop continues. Returns the job row and the indices of
the fully processed categories. -/
def runCategoriesFrom (tsOf : Nat → String) :
    List CatOutcome → Nat → JobRecord → List Nat → JobRecord × List Nat
  | [], _, job, done => (job, done)
  | .ok :: rest, i, job, done =>
    runCategoriesFrom tsOf rest (i + 1)
      { job with processedCategories := job.processedCategories + 1 } (done ++ [i])
  | .fail msg :: rest, i, job, done =>
    runCategoriesFrom tsOf rest (i + 1) (appendJobError job (tsOf i) msg) done

/-- `startCrawl` after a successful browser start: run the category loop
(skipped entirely when a stop was already requested) and finish with
status `stopped` or `completed`. -/
def startCrawlModel (stopReq : Bool) (tsOf : Nat → String) (outcomes : List CatOutcome)
    (job : JobRecord) : JobRecord × List Nat :=
  let p := if stopReq then (job, []) else runCategoriesFrom tsOf outcomes 0 job []
  ({ p.1 with status := if stopReq then "stopped" else "completed" }, p.2)

/-- What processing one product did. -/
inductive ProdOutcome where
  | ok
  | fail (msg : String)
deriving DecidableEq

/-- The product loop of `SupermarketCrawler.crawlCategory` (lines
707-723), bookkeeping view: already-discovered URLs are skipped, a
successful product increments `processed_products`, a thrown error is
caught, logged as `url: message` and counted, and the loop continues. -/
def runProductsFrom (tsOf : Nat → String) :
    List (String × ProdOutcome) → Nat → List String → JobRecord → JobRecord × List String
  | [], _, discovered, job => (job, discovered)
  | (url, oc) :: rest, i, discovered, job =>
    if url ∈ discovered then runProductsFrom tsOf rest (i + 1) discovered job
    else
      match oc with
      | .ok =>
        runProductsFrom tsOf rest (i + 1) (discovered ++ [url])
          { job with processedProducts := job.processedProducts + 1 }
      | .fail msg =>
        runProductsFrom tsOf rest (i + 1) (discovered ++ [url])
          (appendJobError job (tsOf i) (url ++ ": " ++ msg))

/-- Indices of the successful outcomes, used to state which categories
were fully processed. -/
def okIndicesFrom : List CatOutcome → Nat → List Nat
  | [], _ => []
  | .ok :: rest, i => i :: okIndicesFrom rest (i + 1)
  | .fail _ :: rest, i => okIndicesFrom rest (i + 1)

/-- Number of failing category outcomes. -/
def countCatFails (l : List CatOutcome) : Nat :=
  l.countP (fun oc => match oc with | .fail _ => true | .ok => false)

set_option maxRecDepth 100000 in
/-- The SHA-1 embedding agrees with the standard test vector, so the URL
branch of `generateProductId` is computed over the real digest. -/
theorem sha1Hex_test_vector :
    sha1Hex "abc" = "a9993e364706816aba3e25717850c26c9cd0d89d" := by
  rfl

/-- C9: `calculateEAN13CheckDigit` applied to the 12-digit string
"400638133393" returns the single check digit in 0-9 prescribed by the
standard EAN-13 weighting (odd 1-based positions times 1, even times 3,
check digit `(10 - (sum mod 10)) mod 10`), namely 1. -/
theorem ean13CheckDigit_400638133393 :
    calculateEAN13CheckDigit "400638133393" = some 1 ∧
    standardEAN13CheckDigit [4, 0, 0, 6, 3, 8, 1, 3, 3, 3, 9, 3] = 1 ∧
    (0 : Int) ≤ 1 ∧ (1 : Int) ≤ 9 := by
  exact ⟨by decide, by decide, by decide, by decide⟩

/-- C10: `generateProductId` treats an empty-string SKU as absent (URL
hash branch), but a non-empty SKU with no alphanumeric character yields
the empty identity, so all such SKUs collide regardless of URL. -/
theorem generateProductId_degenerateSku :
    (∀ url : String, generateProductId url (some "") = generateProductId url none) ∧
    (∀ url s : String, s ≠ "" → (∀ c ∈ s.toList, isAlnumAscii c = false) →
      generateProductId url (some s) = "") ∧
    (∀ u₁ u₂ s₁ s₂ : String, s₁ ≠ "" → s₂ ≠ "" →
      (∀ c ∈ s₁.toList, isAlnumAscii c = false) →
      (∀ c ∈ s₂.toList, isAlnumAscii c = false) →
      generateProductId u₁ (some s₁) = generateProductId u₂ (some s₂)) := by
  have hempty : ∀ url s : String, s ≠ "" → (∀ c ∈ s.toList, isAlnumAscii c = false) →
      generateProductId url (some s) = "" := by
    intro url s hs hall
    have ht : skuTruthy (some s) = true := by simp [skuTruthy, hs]
    have hf : List.filter isAlnumAscii s.data = [] := by
      rw [List.filter_eq_nil_iff]
      intro c hc
      simp [hall c hc]
    simp [generateProductId, ht, sanitizeSku, String.toList, hf]
  refine ⟨fun url => rfl, hempty, fun u₁ u₂ s₁ s₂ hs₁ hs₂ ha₁ ha₂ => ?_⟩
  rw [hempty u₁ s₁ hs₁ ha₁, hempty u₂ s₂ hs₂ ha₂]

/-- Witness for C10 at a concrete degenerate SKU. -/
theorem generateProductId_degenerateSku_witness :
    (("---" : String) ≠ "" ∧ (∀ c ∈ ("---" : String).toList, isAlnumAscii c = false)) ∧
    generateProductId "https://a.example/p/1" (some "---") = "" :=
  ⟨⟨by decide, by decide⟩,
    generateProductId_degenerateSku.2.1 "https://a.example/p/1" "---" (by decide) (by decide)⟩

/-- C3: `generateProductId` is a deterministic function of (url, sku): a
declared (truthy) SKU is stripped of non-alphanumerics, uppercased and
truncated to 12 characters (so equal SKUs collide across URLs), and
without a SKU the identity is the first 12 hex characters of the SHA-1
digest of the URL, uppercased, hence equal on equal URLs. -/
theorem generateProductId_spec :
    (∀ url s : String, s ≠ "" →
      generateProductId url (some s) =
        String.mk (((s.toList.filter isAlnumAscii).map Char.toUpper).take 12)) ∧
    (∀ u₁ u₂ s : String, s ≠ "" →
      generateProductId u₁ (some s) = generateProductId u₂ (some s)) ∧
    (∀ url : String, generateProductId url none =
      String.mk (((sha1Hex url).toList.take 12).map Char.toUpper)) ∧
    (∀ u₁ u₂ : String, u₁ = u₂ →
      generateProductId u₁ none = generateProductId u₂ none) := by
  have hsku : ∀ url s : String, s ≠ "" →
      generateProductId url (some s) =
        String.mk (((s.toList.filter isAlnumAscii).map Char.toUpper).take 12) := by
    intro url s hs
    have ht : skuTruthy (some s) = true := by simp [skuTruthy, hs]
    simp only [generateProductId, ht, if_pos, Option.getD_some, sanitizeSku]
    rw [List.map_take]
  refine ⟨hsku, fun u₁ u₂ s hs => ?_, fun url => rfl, fun u₁ u₂ h => by rw [h]⟩
  rw [hsku u₁ s hs, hsku u₂ s hs]

/-- Witness for C3 at a concrete SKU. -/
theorem generateProductId_spec_witness :
    (("Ab-12cd!" : String) ≠ "") ∧
    generateProductId "https://shop.example/p/42" (some "Ab-12cd!") =
      String.mk ((("Ab-12cd!".toList.filter isAlnumAscii).map Char.toUpper).take 12) :=
  ⟨by decide, generateProductId_spec.1 "https://shop.example/p/42" "Ab-12cd!" (by decide)⟩

/-- C8: every `appendJobError` call stores exactly the last 100 entries of
the extended log (oldest dropped first, so the stored log is a suffix of
the appended log, of length at most 100, ending in the new timestamped
entry) and increments the `errors` counter by exactly 1; any sequence of
appends keeps the log bounded. -/
theorem appendJobError_bounded :
    (∀ (job : JobRecord) (ts msg : String),
      (appendJobError job ts msg).errorLog = lastN 100 (job.errorLog ++ [⟨ts, msg⟩])) ∧
    (∀ (job : JobRecord) (ts msg : String),
      (appendJobError job ts msg).errorLog.length ≤ 100) ∧
    (∀ (job : JobRecord) (ts msg : String),
      (appendJobError job ts msg).errorLog <:+ job.errorLog ++ [⟨ts, msg⟩]) ∧
    (∀ (job : JobRecord) (ts msg : String),
      (appendJobError job ts msg).errorLog.getLast? = some ⟨ts, msg⟩) ∧
    (∀ (job : JobRecord) (ts msg : String),
      (appendJobError job ts msg).errors = job.errors + 1) ∧
    (∀ (appends : List (String × String)) (job : JobRecord),
      (appends.foldl (fun j p => appendJobError j p.1 p.2) job).errorLog.length ≤
        max job.errorLog.length 100) := by
  have hlen : ∀ (job : JobRecord) (ts msg : String),
      (appendJobError job ts msg).errorLog.length ≤ 100 := by
    intro job ts msg
    simp only [appendJobError, lastN, List.length_drop, List.length_append]
    omega
  refine ⟨fun job ts msg => rfl, hlen, ?_, ?_, fun job ts msg => rfl, ?_⟩
  · intro job ts msg
    exact List.drop_suffix _ _
  · intro job ts msg
    have hle : (job.errorLog ++ [(⟨ts, msg⟩ : ErrEntry)]).length - 100 ≤ job.errorLog.length := by
      simp only [List.length_append, List.length_cons, List.length_nil]
      omega
    simp only [appendJobError, lastN]
    rw [List.drop_append_of_le_length hle, List.getLast?_concat]
  · intro appends
    induction appends with
    | nil => intro job; exact Nat.le_max_left _ _
    | cons p rest ih =>
      intro job
      have h1 := ih (appendJobError job p.1 p.2)
      have h2 : (appendJobError job p.1 p.2).errorLog.length ≤ 100 := hlen _ _ _
      have h3 : max (appendJobError job p.1 p.2).errorLog.length 100 = 100 :=
        Nat.max_eq_right h2
      simp only [List.foldl_cons]
      exact le_trans h1 (le_trans (le_of_eq h3) (Nat.le_max_right _ _))

/-- C4: `classifyImageContent` evaluates its rules first-match-wins in the
order nutrition, ingredients, barcode (8-plus digit run or the tokens
ean/upc/gtin), front, else other, always returning one of the five tags;
text with both a nutrition and an ingredient keyword is tagged
`nutrition`. -/
theorem classifyImageContent_spec :
    (∀ text : String,
      classifyImageContent text = "nutrition" ∨ classifyImageContent text = "ingredients" ∨
      classifyImageContent text = "barcode" ∨ classifyImageContent text = "front" ∨
      classifyImageContent text = "other") ∧
    (∀ text : String, hasNutritionKeyword text = true →
      classifyImageContent text = "nutrition") ∧
    (∀ text : String, hasNutritionKeyword text = false → hasIngredientKeyword text = true →
      classifyImageContent text = "ingredients") ∧
    (∀ text : String, hasNutritionKeyword text = false → hasIngredientKeyword text = false →
      hasBarcodeIndicator text = true → classifyImageContent text = "barcode") ∧
    (∀ text : String, hasNutritionKeyword text = false → hasIngredientKeyword text = false →
      hasBarcodeIndicator text = false → hasFrontKeyword text = true →
      classifyImageContent text = "front") ∧
    (∀ text : String, hasNutritionKeyword text = false → hasIngredientKeyword text = false →
      hasBarcodeIndicator text = false → hasFrontKeyword text = false →
      classifyImageContent text = "other") ∧
    (∀ text : String, hasNutritionKeyword text = true → hasIngredientKeyword text = true →
      classifyImageContent text = "nutrition") ∧
    classifyImageContent "Calories 200 Ingredients: sugar, salt" = "nutrition" := by
  refine ⟨?_, ?_, ?_, ?_, ?_, ?_, ?_, by decide⟩
  · intro text
    simp only [classifyImageContent]
    by_cases h1 : hasNutritionKeyword text <;>
      by_cases h2 : hasIngredientKeyword text <;>
        by_cases h3 : hasBarcodeIndicator text <;>
          by_cases h4 : hasFrontKeyword text <;>
            simp [h1, h2, h3, h4]
  · intro text h1
    simp [classifyImageContent, h1]
  · intro text h1 h2
    simp [classifyImageContent, h1, h2]
  · intro text h1 h2 h3
    simp [classifyImageContent, h1, h2, h3]
  · intro text h1 h2 h3 h4
    simp [classifyImageContent, h1, h2, h3, h4]
  · intro text h1 h2 h3 h4
    simp [classifyImageContent, h1, h2, h3, h4]
  · intro text h1 _
    simp [classifyImageContent, h1]

/-- Witness for C4 at a text containing both a nutrition keyword and an
ingredient keyword. -/
theorem classifyImageContent_spec_witness :
    (hasNutritionKeyword "Calories 200 Ingredients: sugar, salt" = true ∧
      hasIngredientKeyword "Calories 200 Ingredients: sugar, salt" = true) ∧
    classifyImageContent "Calories 200 Ingredients: sugar, salt" = "nutrition" :=
  ⟨⟨by decide, by decide⟩,
    classifyImageContent_spec.2.2.2.2.2.2.1 "Calories 200 Ingredients: sugar, salt"
      (by decide) (by decide)⟩

/-- C5: after a failed decode the pipeline recovers a barcode from OCR
text by testing standalone digit-run lengths in priority order 13, 12, 8,
14, keeping the first match (or none), and records it with the fixed
confidence 0.5, strictly below the 0.95 of a true decode. -/
theorem extractBarcodeFromOCR_spec :
    (∀ (t v : String), findExactRun t 13 = some v → extractBarcodeFromOCR t = some v) ∧
    (∀ (t v : String), findExactRun t 13 = none → findExactRun t 12 = some v →
      extractBarcodeFromOCR t = some v) ∧
    (∀ (t v : String), findExactRun t 13 = none → findExactRun t 12 = none →
      findExactRun t 8 = some v → extractBarcodeFromOCR t = some v) ∧
    (∀ t : String, findExactRun t 13 = none → findExactRun t 12 = none →
      findExactRun t 8 = none → extractBarcodeFromOCR t = findExactRun t 14) ∧
    (∀ t : String, recoverBarcodeFromOCR none t =
      (extractBarcodeFromOCR t).map
        (fun v => ⟨v, if v.length == 13 then "EAN-13" else "Unknown",
          ocrFallbackConfidence⟩)) ∧
    (∀ (r : BarcodeResult) (t : String), recoverBarcodeFromOCR (some r) t = some r) ∧
    ocrFallbackConfidence < trueDecodeConfidence ∧
    extractBarcodeFromOCR "12345678 and 4006381333931" = some "4006381333931" := by
  refine ⟨?_, ?_, ?_, ?_, ?_, ?_, by norm_num [ocrFallbackConfidence, trueDecodeConfidence],
    by decide⟩
  · intro t v h
    simp [extractBarcodeFromOCR, h]
  · intro t v h13 h12
    simp [extractBarcodeFromOCR, h13, h12]
  · intro t v h13 h12 h8
    simp [extractBarcodeFromOCR, h13, h12, h8]
  · intro t h13 h12 h8
    simp [extractBarcodeFromOCR, h13, h12, h8]
  · intro t
    by_cases ht : t = ""
    · subst ht
      rfl
    · have hne : t.isEmpty = false := by
        cases hb : t.isEmpty with
        | false => rfl
        | true => exact absurd ((String.isEmpty_iff t).mp hb) ht
      cases hx : extractBarcodeFromOCR t <;>
        simp [recoverBarcodeFromOCR, hne, hx]
  · intro r t
    simp [recoverBarcodeFromOCR]

/-- Witness for C5: a text with only a 14-digit standalone run falls
through the 13, 12 and 8 priorities. -/
theorem extractBarcodeFromOCR_spec_witness :
    (findExactRun "ITF code 12345678901234" 13 = none ∧
      findExactRun "ITF code 12345678901234" 12 = none ∧
      findExactRun "ITF code 12345678901234" 8 = none) ∧
    extractBarcodeFromOCR "ITF code 12345678901234" =
      findExactRun "ITF code 12345678901234" 14 :=
  ⟨⟨by decide, by decide, by decide⟩,
    extractBarcodeFromOCR_spec.2.2.2.1 "ITF code 12345678901234"
      (by decide) (by decide) (by decide)⟩

/-- Generalisation of the crawler's OCR-field fold to an arbitrary
accumulator: the lookup in the folded object is the last-seen choice over
the per-text parses, falling back to the accumulator. -/
theorem crawlerOcrFields_foldl (texts : List String) (acc : JsObj) (k : String) :
    getProp (texts.foldl (fun a t => if t = "" then a else a ++ parseOCRFields t) acc) k =
      texts.foldl
        (fun r t => if t = "" then r else firstSome (getProp (parseOCRFields t) k) r)
        (getProp acc k) := by
  induction texts generalizing acc with
  | nil => rfl
  | cons t rest ih =>
    simp only [List.foldl_cons]
    by_cases ht : t = ""
    · simp only [ht, if_pos rfl]
      exact ih acc
    · simp only [if_neg ht]
      rw [ih (acc ++ parseOCRFields t), getProp_append]

/-- C1 counterexample: two images whose OCR texts parse to differing
`net_weight` values; the field map the crawler stores keeps the SECOND
image's value, not the first image's value required by the claim. -/
theorem ocrFieldMerge_counterexample :
    getProp (parseOCRFields "Net Weight: 100 g") "net_weight" = some (JsVal.str "100 g") ∧
    getProp (parseOCRFields "Net Weight: 200 g") "net_weight" = some (JsVal.str "200 g") ∧
    getProp (crawlerOcrFields ["Net Weight: 100 g", "Net Weight: 200 g"]) "net_weight" =
      some (JsVal.str "200 g") ∧
    firstSeenFieldValue ["Net Weight: 100 g", "Net Weight: 200 g"] "net_weight" =
      some (JsVal.str "100 g") ∧
    (some (JsVal.str "200 g") ≠ some (JsVal.str "100 g")) := by
  exact ⟨by decide, by decide, by decide, by decide, by decide⟩

/-- C1 (amended): the merged OCR field map stored on the ProductRecord by
`SupermarketCrawler.processProductImages` is built LAST-seen-wins — for
every field key the stored value equals the value parsed from the latest
image (with non-empty OCR text) that defines that key, so for two images
with differing `net_weight` the final value is the second image's; the OCR
module's standalone `processProductImages` helper, which the crawler does
not call when storing, merges first-seen-wins. -/
theorem ocrFieldMerge_lastSeenWins :
    (∀ (texts : List String) (k : String),
      getProp (crawlerOcrFields texts) k = lastSeenFieldValue texts k) ∧
    getProp (crawlerOcrFields ["Net Weight: 100 g", "Net Weight: 200 g"]) "net_weight" =
      getProp (parseOCRFields "Net Weight: 200 g") "net_weight" ∧
    getProp (ocrModuleParsedFields ["Net Weight: 100 g", "Net Weight: 200 g"]) "net_weight" =
      some (JsVal.str "100 g") := by
  refine ⟨fun texts k => ?_, by decide, by decide⟩
  have h := crawlerOcrFields_foldl texts [] k
  simpa [crawlerOcrFields, lastSeenFieldValue, getProp] using h

/-- C2 counterexample: a structured-data block carrying `"name": null`
(a present but empty value) erases the DOM-extraction's non-empty name in
the spread merge of `extractProductData`, whereas the spec's merge rule
keeps the DOM value. -/
theorem productMerge_counterexample :
    getProp
        (mergeProductSources [("name", JsVal.str "Dom Name")]
          (some [("name", JsVal.null)]) none) "name" = some JsVal.null ∧
    specNonEmptyPrecedenceMerge [("name", JsVal.str "Dom Name")]
        (some [("name", JsVal.null)]) none "name" = some (JsVal.str "Dom Name") ∧
    (some JsVal.null ≠ some (JsVal.str "Dom Name")) := by
  exact ⟨by decide, by decide, by decide⟩

/-- C2 (amended): `extractProductData` fuses the three sources with fixed
precedence DOM-fallback < structured data < intercepted JSON (its
`product` then `item` sub-objects); for each field the merged value is
that of the highest-precedence source in which the key is PRESENT,
regardless of emptiness — a higher-precedence source lacking the key does
not erase a lower-precedence value, but a present empty/null value does
overwrite it. -/
theorem productMerge_presenceOverride :
    (∀ (dom : JsObj) (sd : Option JsObj) (jd : Option InterceptedJson) (k : String),
      getProp (mergeProductSources dom sd jd) k =
        firstSome (getProp (interceptedItemObj jd) k)
          (firstSome (getProp (interceptedProductObj jd) k)
            (firstSome (getProp (optObj sd) k) (getProp dom k)))) ∧
    (∀ (dom : JsObj) (sd : Option JsObj) (jd : Option InterceptedJson) (k : String),
      getProp (interceptedItemObj jd) k = none →
      getProp (interceptedProductObj jd) k = none →
      getProp (optObj sd) k = none →
      getProp (mergeProductSources dom sd jd) k = getProp dom k) := by
  have hmain : ∀ (dom : JsObj) (sd : Option JsObj) (jd : Option InterceptedJson) (k : String),
      getProp (mergeProductSources dom sd jd) k =
        firstSome (getProp (interceptedItemObj jd) k)
          (firstSome (getProp (interceptedProductObj jd) k)
            (firstSome (getProp (optObj sd) k) (getProp dom k))) := by
    intro dom sd jd k
    cases jd with
    | none =>
      cases sd with
      | none => simp [mergeProductSources, mergeStructuredWithJson, interceptedItemObj,
          interceptedProductObj, optObj, getProp, firstSome]
      | some s =>
        simp only [mergeProductSources, mergeStructuredWithJson, interceptedItemObj,
          interceptedProductObj, optObj]
        rw [getProp_append]
        simp [getProp, firstSome]
    | some j =>
      simp only [mergeProductSources, mergeStructuredWithJson, interceptedItemObj,
        interceptedProductObj]
      rw [getProp_append, getProp_append, getProp_append, firstSome_assoc, firstSome_assoc]
  refine ⟨hmain, fun dom sd jd k h1 h2 h3 => ?_⟩
  rw [hmain dom sd jd k, h1, h2, h3]
  rfl

/-- Witness for C2 (amended): with no intercepted response and a
structured block lacking the key, the DOM value survives. -/
theorem productMerge_presenceOverride_witness :
    (getProp (interceptedItemObj none) "name" = none ∧
      getProp (interceptedProductObj none) "name" = none ∧
      getProp (optObj (some [("brand", JsVal.str "Acme")])) "name" = none) ∧
    getProp
        (mergeProductSources [("name", JsVal.str "Green Tea")]
          (some [("brand", JsVal.str "Acme")]) none) "name" =
      getProp [("name", JsVal.str "Green Tea")] "name" :=
  ⟨⟨by decide, by decide, by decide⟩,
    productMerge_presenceOverride.2 [("name", JsVal.str "Green Tea")]
      (some [("brand", JsVal.str "Acme")]) none "name" (by decide) (by decide) (by decide)⟩

/-- C7: a failure thrown while processing a single category (or product)
is contained — the error is appended to the job log with timestamp and
message, the error counter increments by exactly 1 per failure, processing
continues with the next item (exactly the successful categories are
counted as processed), and the job finishes `completed`/`stopped`, never
`failed`; concretely, with 3 categories and a forced failure in category 2
(index 1), categories 1 and 3 are fully processed and the error counter is
exactly 1. -/
theorem startCrawl_failureContainment :
    (∀ (stopReq : Bool) (tsOf : Nat → String) (outcomes : List CatOutcome) (job : JobRecord),
      (startCrawlModel stopReq tsOf outcomes job).1.status ≠ "failed") ∧
    (∀ (tsOf : Nat → String) (outcomes : List CatOutcome) (i : Nat) (job : JobRecord)
        (done : List Nat),
      (runCategoriesFrom tsOf outcomes i job done).1.errors =
        job.errors + countCatFails outcomes) ∧
    (∀ (tsOf : Nat → String) (outcomes : List CatOutcome) (i : Nat) (job : JobRecord)
        (done : List Nat),
      (runCategoriesFrom tsOf outcomes i job done).2 = done ++ okIndicesFrom outcomes i) ∧
    (∀ (tsOf : Nat → String) (items : List (String × ProdOutcome)) (i : Nat)
        (discovered : List String) (job : JobRecord),
      (runProductsFrom tsOf items i discovered job).1.status = job.status) ∧
    startCrawlModel false (fun i => "t" ++ toString i) [.ok, .fail "boom", .ok]
        ⟨"running", [], 0, 0, 0⟩ =
      (⟨"completed", [⟨"t1", "boom"⟩], 1, 2, 0⟩, [0, 2]) ∧
    runProductsFrom (fun i => "s" ++ toString i)
        [("u1", .ok), ("u2", .fail "x"), ("u3", .ok)] 0 [] ⟨"running", [], 0, 0, 0⟩ =
      (⟨"running", [⟨"s1", "u2: x"⟩], 1, 0, 2⟩, ["u1", "u2", "u3"]) := by
  refine ⟨?_, ?_, ?_, ?_, by decide, by decide⟩
  · intro stopReq tsOf outcomes job
    cases stopReq <;> simp [startCrawlModel]
  · intro tsOf outcomes
    induction outcomes with
    | nil => intro i job done; simp [runCategoriesFrom, countCatFails]
    | cons oc rest ih =>
      intro i job done
      cases oc with
      | ok =>
        simp only [runCategoriesFrom, countCatFails, List.countP_cons]
        rw [ih]
        simp [countCatFails]
      | fail msg =>
        simp only [runCategoriesFrom, countCatFails, List.countP_cons]
        rw [ih]
        simp [countCatFails, appendJobError]
        omega
  · intro tsOf outcomes
    induction outcomes with
    | nil => intro i job done; simp [runCategoriesFrom, okIndicesFrom]
    | cons oc rest ih =>
      intro i job done
      cases oc with
      | ok =>
        simp only [runCategoriesFrom, okIndicesFrom]
        rw [ih]
        simp
      | fail msg =>
        simp only [runCategoriesFrom, okIndicesFrom]
        rw [ih]
  · intro tsOf items
    induction items with
    | nil => intro i discovered job; rfl
    | cons p rest ih =>
      intro i discovered job
      obtain ⟨url, oc⟩ := p
      by_cases hd : url ∈ discovered
      · simp only [runProductsFrom, if_pos hd]
        exact ih _ _ _
      · cases oc with
        | ok =>
          simp only [runProductsFrom, if_neg hd]
          rw [ih]
        | fail msg =>
          simp only [runProductsFrom, if_neg hd]
          rw [ih]
          simp [appendJobError]

/-- Witness for C7: a job whose only category fails still does not end in
status `failed`. -/
theorem startCrawl_failureContainment_witness :
    (startCrawlModel false (fun _ => "t0") [.fail "navigation timeout"]
          ⟨"running", [], 0, 0, 0⟩).1.status ≠ "failed" :=
  startCrawl_failureContainment.1 false (fun _ => "t0") [.fail "navigation timeout"]
    ⟨"running", [], 0, 0, 0⟩

/-- On a page of pairwise-distinct links none of which was discovered
before, the product loop hands off every link, in order. -/
theorem collectNewProducts_of_fresh (l : List String) :
    ∀ disc : List String, (∀ u ∈ l, u ∉ disc) → l.Nodup →
      collectNewProducts disc l = (disc ++ l, l) := by
  induction l with
  | nil => intro disc _ _; simp [collectNewProducts]
  | cons u rest ih =>
    intro disc hfresh hnd
    have hu : u ∉ disc := hfresh u (by simp)
    have hrest : ∀ v ∈ rest, v ∉ disc ++ [u] := by
      intro v hv
      have hvd : v ∉ disc := hfresh v (List.mem_cons_of_mem _ hv)
      have hvu : v ≠ u := by
        intro he
        exact (List.nodup_cons.mp hnd).1 (he ▸ hv)
      simp [hvd, hvu]
    simp only [collectNewProducts, if_neg hu]
    rw [ih (disc ++ [u]) hrest (List.nodup_cons.mp hnd).2]
    simp

/-- C6: the `crawlCategory` loop terminates exactly at its four stated
exits — a requested stop returns immediately with reason `stopRequested`,
and without a stop request the reason is never `stopRequested` but one of
page-already-visited, zero product links, or no next page; a category
whose page 1 yields distinct product links with a next page and whose page
2 yields zero links stops after page 2 with exactly page 1's links handed
off. -/
theorem crawlCategory_termination :
    (∀ (site : CatUrl → PageView) (catUrl : CatUrl) (fuel : Nat) (visited : List CatUrl)
        (discovered handed : List String) (pageNum : Nat),
      0 < fuel →
      crawlCategoryModel site true catUrl fuel visited discovered handed pageNum =
        some ⟨handed, visited, .stopRequested⟩) ∧
    (∀ (site : CatUrl → PageView) (catUrl : CatUrl) (fuel : Nat) (visited : List CatUrl)
        (discovered handed : List String) (pageNum : Nat) (r : CatTraversal),
      crawlCategoryModel site false catUrl fuel visited discovered handed pageNum = some r →
      r.reason = .pageVisited ∨ r.reason = .noProducts ∨ r.reason = .noNextPage) ∧
    (∀ (site : CatUrl → PageView) (catUrl : CatUrl) (links : List String) (fuel : Nat),
      site (getPaginatedUrl catUrl 1) = ⟨links, true⟩ →
      links ≠ [] → links.Nodup →
      (site (getPaginatedUrl catUrl 2)).links = [] →
      getPaginatedUrl catUrl 2 ≠ getPaginatedUrl catUrl 1 →
      crawlCategoryModel site false catUrl (fuel + 2) [] [] [] 1 =
        some ⟨links, [getPaginatedUrl catUrl 1, getPaginatedUrl catUrl 2], .noProducts⟩) := by
  refine ⟨?_, ?_, ?_⟩
  · intro site catUrl fuel visited discovered handed pageNum hf
    cases fuel with
    | zero => omega
    | succ n => simp [crawlCategoryModel]
  · intro site catUrl fuel
    induction fuel with
    | zero =>
      intro visited discovered handed pageNum r hr
      simp [crawlCategoryModel] at hr
    | succ n ih =>
      intro visited discovered handed pageNum r hr
      simp only [crawlCategoryModel, if_neg (Bool.false_ne_true)] at hr
      by_cases hv : getPaginatedUrl catUrl pageNum ∈ visited
      · rw [if_pos hv] at hr
        cases hr
        left; rfl
      · rw [if_neg hv] at hr
        by_cases hl : (site (getPaginatedUrl catUrl pageNum)).links.isEmpty
        · rw [if_pos hl] at hr
          cases hr
          right; left; rfl
        · rw [if_neg hl] at hr
          by_cases hn : (site (getPaginatedUrl catUrl pageNum)).hasNext
          · rw [if_pos hn] at hr
            exact ih _ _ _ _ _ hr
          · rw [if_neg hn] at hr
            cases hr
            right; right; rfl
  · intro site catUrl links fuel hsite hne hnd hsite2 hdiff
    have hp1 : getPaginatedUrl catUrl 1 ∉ ([] : List CatUrl) := by simp
    have hstep1 :
        crawlCategoryModel site false catUrl (fuel + 2) [] [] [] 1 =
          crawlCategoryModel site false catUrl (fuel + 1) [getPaginatedUrl catUrl 1]
            links links 2 := by
      have hcollect := collectNewProducts_of_fresh links [] (by simp) hnd
      simp only [crawlCategoryModel, if_neg (Bool.false_ne_true)]
      rw [if_neg hp1, hsite]
      have hlinksne : links.isEmpty = false := by
        cases links with
        | nil => exact absurd rfl hne
        | cons a l => rfl
      simp only [hlinksne, Bool.false_eq_true, if_neg (by simp : ¬False)]
      rw [hcollect]
      simp
    rw [hstep1]
    have hp2 : getPaginatedUrl catUrl 2 ∉ [getPaginatedUrl catUrl 1] := by
      simp [hdiff]
    simp only [crawlCategoryModel, if_neg (Bool.false_ne_true)]
    rw [if_neg hp2]
    have hl2 : (site (getPaginatedUrl catUrl 2)).links.isEmpty = true := by
      rw [hsite2]; rfl
    simp [hl2]

/-- Witness for C6: a two-page category with five distinct products on
page 1 and an empty page 2 hands off exactly those five products. -/
theorem crawlCategory_termination_witness :
    ((fun u : CatUrl =>
        if u = ⟨"https://shop.example/c/snacks", []⟩ then
          PageView.mk ["https://shop.example/p/10001", "https://shop.example/p/10002",
            "https://shop.example/p/10003", "https://shop.example/p/10004",
            "https://shop.example/p/10005"] true
        else ⟨[], false⟩)
      (getPaginatedUrl ⟨"https://shop.example/c/snacks", []⟩ 1) =
        ⟨["https://shop.example/p/10001", "https://shop.example/p/10002",
          "https://shop.example/p/10003", "https://shop.example/p/10004",
          "https://shop.example/p/10005"], true⟩) ∧
    crawlCategoryModel
        (fun u : CatUrl =>
          if u = ⟨"https://shop.example/c/snacks", []⟩ then
            PageView.mk ["https://shop.example/p/10001", "https://shop.example/p/10002",
              "https://shop.example/p/10003", "https://shop.example/p/10004",
              "https://shop.example/p/10005"] true
          else ⟨[], false⟩)
        false ⟨"https://shop.example/c/snacks", []⟩ (0 + 2) [] [] [] 1 =
      some ⟨["https://shop.example/p/10001", "https://shop.example/p/10002",
          "https://shop.example/p/10003", "https://shop.example/p/10004",
          "https://shop.example/p/10005"],
        [getPaginatedUrl ⟨"https://shop.example/c/snacks", []⟩ 1,
          getPaginatedUrl ⟨"https://shop.example/c/snacks", []⟩ 2], .noProducts⟩ :=
  ⟨by decide,
    crawlCategory_termination.2.2
      (fun u : CatUrl =>
        if u = ⟨"https://shop.example/c/snacks", []⟩ then
          PageView.mk ["https://shop.example/p/10001", "https://shop.example/p/10002",
            "https://shop.example/p/10003", "https://shop.example/p/10004",
            "https://shop.example/p/10005"] true
        else ⟨[], false⟩)
      ⟨"https://shop.example/c/snacks", []⟩
      ["https://shop.example/p/10001", "https://shop.example/p/10002",
        "https://shop.example/p/10003", "https://shop.example/p/10004",
        "https://shop.example/p/10005"] 0
      (by decide) (by decide) (by decide) (by decide) (by decide)⟩

end Crawler
